import Mathlib

/-!
Shallow embedding of the scene-change detector in `src/detector.py`
(class `SceneDetector`).  Scores and thresholds are IEEE doubles in the
source; here they are modelled as `Option ℚ`, with `none` standing for
NaN (the only source of non-finite values in the program is the
NaN-propagation of the window statistics and of `numpy.corrcoef` on
degenerate input).  The float implementations of square root and of the
exponential are abstracted as parameters `sqrtFn` and `expFn : ℚ → ℚ`,
applied exactly where `numpy` applies them.
-/

namespace SceneDetection

/-- IEEE-style addition on the NaN model: NaN absorbs. -/
def fadd : Option ℚ → Option ℚ → Option ℚ
  | some x, some y => some (x + y)
  | none, _ => none
  | some _, none => none

/-- IEEE-style multiplication on the NaN model: NaN absorbs
(including `0 * NaN = NaN`, as for doubles). -/
def fmul : Option ℚ → Option ℚ → Option ℚ
  | some x, some y => some (x * y)
  | none, _ => none
  | some _, none => none

/-- IEEE-style strict greater-than: any comparison with NaN is false. -/
def fgt : Option ℚ → Option ℚ → Bool
  | some x, some y => decide (y < x)
  | none, _ => false
  | some _, none => false

/-- The entries of the window that are present (non-NaN). -/
def present : List (Option ℚ) → List ℚ
  | [] => []
  | none :: rest => present rest
  | some x :: rest => x :: present rest

/-- Model of `numpy.nanmean` (detector.py line 34): mean over the
present entries; NaN when none are present. -/
def nanmean (w : List (Option ℚ)) : Option ℚ :=
  if (present w).length = 0 then none
  else some ((present w).sum / (present w).length)

/-- Model of `numpy.nanstd(window, ddof=1)` (detector.py line 47):
sample standard deviation over the present entries, divisor `n - 1`;
NaN with fewer than 2 present entries (degrees of freedom `<= 0`). -/
def nanstd (sqrtFn : ℚ → ℚ) (w : List (Option ℚ)) : Option ℚ :=
  if (present w).length < 2 then none
  else
    some (sqrtFn ((((present w).map
      (fun x => (x - (present w).sum / (present w).length) ^ 2)).sum) /
        (((present w).length : ℚ) - 1)))

/-- Head slot `window[0]`, the most recently inserted score
(detector.py line 67).  The window of a run is never empty (it is
created with `window_size` NaN slots), so the empty case is never hit
there. -/
def win0 : List (Option ℚ) → Option ℚ
  | [] => none
  | x :: _ => x

/-- Model of `__calculate_basic_threshold` (detector.py lines 49-67):
`a * window[0] + b * nanmean(window) + c * nanstd(window)`, with
Python's left-associated float arithmetic. -/
def basicThreshold (sqrtFn : ℚ → ℚ) (a b c : ℚ) (w : List (Option ℚ)) : Option ℚ :=
  fadd (fadd (fmul (some a) (win0 w)) (fmul (some b) (nanmean w)))
    (fmul (some c) (nanstd sqrtFn w))

/-- Model of `__calculate_decay_threshold` (detector.py lines 69-85):
`last_change_frame_value * exp(s * -1 * (current_frame - last_change_frame))`. -/
def decayThreshold (expFn : ℚ → ℚ) (anchorVal : Option ℚ) (s : ℚ)
    (lastChangeFrame : ℤ) (currentFrame : ℕ) : Option ℚ :=
  fmul anchorVal (some (expFn (s * (-1) * ((currentFrame : ℚ) - (lastChangeFrame : ℚ)))))

/-- The engine state: the local variables of `detect`
(detector.py lines 205-225) that drive the threshold decision. -/
structure EngState where
  window : List (Option ℚ)
  change_detected : Bool
  decay_counter : ℤ
  last_change_frame : ℤ
  last_change_frame_value : Option ℚ
deriving Repr, DecidableEq

/-- Initial engine state (detector.py lines 205, 219-222): an all-NaN
window of length `window_size`, no change detected,
`decay_counter = 0`, `last_change_frame = -1`,
`last_change_frame_value = 0`. -/
def initState (windowSize : ℕ) : EngState :=
  { window := List.replicate windowSize none
    change_detected := false
    decay_counter := 0
    last_change_frame := -1
    last_change_frame_value := some 0 }

/-- The threshold computed for one step (detector.py lines 252-264):
the decay threshold when `change_detected`, else the basic one. -/
def stepThreshold (sqrtFn expFn : ℚ → ℚ) (a b c s : ℚ) (st : EngState)
    (t : ℕ) : Option ℚ :=
  if st.change_detected then
    decayThreshold expFn st.last_change_frame_value s st.last_change_frame t
  else
    basicThreshold sqrtFn a b c st.window

/-- One engine step at frame `t` with score `v` (the body of the
`previous_frame is not None` branch, detector.py lines 250-297):
compute the threshold, decrement the decay counter when in decay mode
(leaving decay mode at `decay_counter <= 0`), trigger on
`v > threshold` (recording the event `(t - 1, t)` and overwriting the
decay state), then push the score into the window
(`numpy.delete(window, -1)` followed by `numpy.insert(window, 0, v)`). -/
def engineStep (sqrtFn expFn : ℚ → ℚ) (a b c s : ℚ) (k : ℤ) (st : EngState)
    (t : ℕ) (v : Option ℚ) : EngState × Option (ℕ × ℕ) :=
  let threshold := stepThreshold sqrtFn expFn a b c s st t
  let st1 :=
    if st.change_detected then
      { st with decay_counter := st.decay_counter - 1
                change_detected := decide (0 < st.decay_counter - 1) }
    else st
  let triggered := fgt v threshold
  let st2 :=
    if triggered then
      { st1 with change_detected := true
                 decay_counter := k
                 last_change_frame := (t : ℤ)
                 last_change_frame_value := v }
    else st1
  let st3 := { st2 with window := v :: st2.window.dropLast }
  (st3, if triggered then some (t - 1, t) else none)

/-- Run the engine over a list of scores, the first at frame `t`
(in a full run the first compared frame is frame 2); returns the final
state and the emitted events in order. -/
def runAux (sqrtFn expFn : ℚ → ℚ) (a b c s : ℚ) (k : ℤ) :
    EngState → ℕ → List (Option ℚ) → EngState × List (ℕ × ℕ)
  | st, _, [] => (st, [])
  | st, t, v :: rest =>
      let r := engineStep sqrtFn expFn a b c s k st t v
      let r2 := runAux sqrtFn expFn a b c s k r.1 (t + 1) rest
      (r2.1, match r.2 with
             | some e => e :: r2.2
             | none => r2.2)

/-- A grayscale frame: a 2-D grid of 8-bit intensity samples
(`cv2.cvtColor(frame, cv2.COLOR_BGR2GRAY)` yields a `uint8` array). -/
abbrev Frame := List (List ℕ)

/-- Row-major flattening of a frame (`numpy`'s element order). -/
def flattenFrame : List (List ℕ) → List ℕ
  | [] => []
  | r :: rest => r ++ flattenFrame rest

/-- Wrapping `uint8` subtraction: `frame1 - frame2` on `uint8` arrays
wraps modulo 256, so the element-wise difference is `(x - y) mod 256`. -/
def u8sub (x y : ℕ) : ℕ :=
  (x % 256 + (256 - y % 256)) % 256

/-- Model of `__calculate_SAD` (detector.py lines 87-99) as the integer
it computes: `numpy.sum(numpy.abs(frame1 - frame2))`; absolute value on
`uint8` is the identity, and the sum is accumulated at platform-word
width, so only the element-wise difference wraps. -/
def sadNat (f1 f2 : Frame) : ℕ :=
  (List.zipWith u8sub (flattenFrame f1) (flattenFrame f2)).sum

/-- Model of `__calculate_SSD` (detector.py lines 101-113) as the
integer it computes: `numpy.sum((frame1 - frame2)**2)`; both the
difference and the square stay `uint8` and wrap modulo 256, the sum is
accumulated at platform-word width. -/
def ssdNat (f1 f2 : Frame) : ℕ :=
  (List.zipWith (fun x y => u8sub x y ^ 2 % 256) (flattenFrame f1) (flattenFrame f2)).sum

/-- Score produced by `__calculate_SAD`. -/
def calculate_SAD (f1 f2 : Frame) : Option ℚ :=
  some (sadNat f1 f2)

/-- Score produced by `__calculate_SSD`. -/
def calculate_SSD (f1 f2 : Frame) : Option ℚ :=
  some (ssdNat f1 f2)

/-- Model of `__calculate_MAD` (detector.py lines 115-127):
`SAD / frame1.size ** 2`; an empty frame gives the float `0 / 0`,
i.e. NaN. -/
def calculate_MAD (f1 f2 : Frame) : Option ℚ :=
  if (flattenFrame f1).length = 0 then none
  else some ((sadNat f1 f2 : ℚ) / ((flattenFrame f1).length : ℚ) ^ 2)

/-- Model of `__calculate_CORR` (detector.py lines 129-143):
`numpy.corrcoef(frame1.flat, frame2.flat)[0][1]`.  `corrcoef` forms
the covariance matrix with divisor `n - 1`, divides by the square
roots of the diagonal and clips to `[-1, 1]`; a constant input (zero
variance) or fewer than two samples gives a float division producing
NaN. -/
def calculate_CORR (sqrtFn : ℚ → ℚ) (f1 f2 : Frame) : Option ℚ :=
  let xs := (flattenFrame f1).map (fun v => (v : ℚ))
  let ys := (flattenFrame f2).map (fun v => (v : ℚ))
  if xs.length < 2 then none
  else
    let n : ℚ := xs.length
    let mx := xs.sum / n
    let my := ys.sum / n
    let cxy := (List.zipWith (fun x y => (x - mx) * (y - my)) xs ys).sum / (n - 1)
    let cxx := (xs.map (fun x => (x - mx) ^ 2)).sum / (n - 1)
    let cyy := (ys.map (fun y => (y - my) ^ 2)).sum / (n - 1)
    if cxx = 0 ∨ cyy = 0 then none
    else some (max (-1) (min 1 (cxy / (sqrtFn cxx * sqrtFn cyy))))

/-- Model of `__get_difference_method` (detector.py lines 145-161): the
name-keyed dispatch table; an unknown key has no entry (`methods[key]`
raises `KeyError` there). -/
def getDifferenceMethod (sqrtFn : ℚ → ℚ) (key : String) :
    Option (Frame → Frame → Option ℚ) :=
  if key = "SAD" then some calculate_SAD
  else if key = "SSD" then some calculate_SSD
  else if key = "MAD" then some calculate_MAD
  else if key = "CORR" then some (calculate_CORR sqrtFn)
  else none

/-- The playback loop of `detect` (detector.py lines 231-300):
`frame_count` is incremented once per grabbed frame; the first frame
only seeds `previous_frame`; every later frame is scored against the
previous one via the selected method (the dispatch lookup happens here,
inside the loop) and fed through the engine step.  A failed dispatch
lookup is the `KeyError` escaping `detect`. -/
def detectLoop (sqrtFn expFn : ℚ → ℚ) (a b c s : ℚ) (k : ℤ) (method : String) :
    EngState → Option Frame → ℕ → List Frame → Except Unit (List (ℕ × ℕ))
  | _, _, _, [] => .ok []
  | st, none, fc, f :: rest =>
      detectLoop sqrtFn expFn a b c s k method st (some f) (fc + 1) rest
  | st, some pf, fc, f :: rest =>
      match getDifferenceMethod sqrtFn method with
      | none => .error ()
      | some mf =>
          let r := engineStep sqrtFn expFn a b c s k st (fc + 1) (mf f pf)
          match detectLoop sqrtFn expFn a b c s k method r.1 (some f) (fc + 1) rest with
          | .error e => .error e
          | .ok evs => .ok (match r.2 with
                            | some e => e :: evs
                            | none => evs)

/-- Model of `detect` (detector.py lines 179-314) on a list of grabbed
frames: runs the playback loop from the initial state and returns the
`output_data` pairs (the emitted `ChangeEvent`s), or the error of a
failed method lookup. -/
def detect (sqrtFn expFn : ℚ → ℚ) (windowSize : ℕ) (method : String)
    (a b c s : ℚ) (k : ℤ) (frames : List Frame) : Except Unit (List (ℕ × ℕ)) :=
  detectLoop sqrtFn expFn a b c s k method (initState windowSize) none 0 frames

/-- Modelled from the spec: the SSD entry of the metric table in §4.1,
`Σ (a[i] - b[i])²` as exact integer arithmetic, for comparison with the
`uint8` arithmetic the code performs. -/
def ssdSpecFormula (f1 f2 : Frame) : ℤ :=
  (List.zipWith (fun x y => ((x : ℤ) - (y : ℤ)) ^ 2)
    (flattenFrame f1) (flattenFrame f2)).sum

/-- The decay-mode invariant maintained by the engine for `k ≥ 1`,
where `t` is the frame index of the next step to be processed: the
counter is never negative, and while decay mode is active the counter
is positive and counts exactly the decay steps left before frame
`last_change_frame + k`. -/
def EngInv (k : ℤ) (st : EngState) (t : ℕ) : Prop :=
  0 ≤ st.decay_counter ∧
  (st.change_detected = true →
    1 ≤ st.decay_counter ∧
      st.decay_counter = st.last_change_frame + k - ((t : ℤ) - 1))

/-- The constant-zero stand-in used to instantiate the abstract float
`sqrt`/`exp` parameters in concrete runs. -/
def zeroFn : ℚ → ℚ := fun _ => 0

/-- A stand-in for float `sqrt` that is exact on the two values the
CORR test frames produce: `sqrt 0 = 0` and `sqrt 4 = 2`. -/
def corrTestSqrt : ℚ → ℚ := fun q => if q = 0 then 0 else 2

/-- The constant-one stand-in for the float exponential, exact at the
only argument occurring when `s = 0`: `exp(0) = 1`. -/
def oneFn : ℚ → ℚ := fun _ => 1


@[simp] theorem fadd_none_right (x : Option ℚ) : fadd x none = none := by
  cases x <;> rfl

@[simp] theorem fmul_none_right (x : Option ℚ) : fmul x none = none := by
  cases x <;> rfl

@[simp] theorem fgt_none_right (v : Option ℚ) : fgt v none = false := by
  cases v <;> rfl

@[simp] theorem getDifferenceMethod_SAD (sqrtFn : ℚ → ℚ) :
    getDifferenceMethod sqrtFn "SAD" = some calculate_SAD := rfl

@[simp] theorem getDifferenceMethod_SSD (sqrtFn : ℚ → ℚ) :
    getDifferenceMethod sqrtFn "SSD" = some calculate_SSD := rfl

@[simp] theorem getDifferenceMethod_MAD (sqrtFn : ℚ → ℚ) :
    getDifferenceMethod sqrtFn "MAD" = some calculate_MAD := rfl

@[simp] theorem getDifferenceMethod_CORR (sqrtFn : ℚ → ℚ) :
    getDifferenceMethod sqrtFn "CORR" = some (calculate_CORR sqrtFn) := rfl

/-- C1: for every step taken while no post-change decay is active
(`change_detected = false`), the event decision compares the current
score against exactly `a * window[0] + b * nanmean(window) +
c * nanstd(window)` — `window[0]` being the head slot (most recently
inserted score), the mean ignoring absent (NaN) slots, and the
standard deviation being the sample one over the present slots with
divisor `n - 1`, as embedded in `nanmean`/`nanstd`. -/
theorem C1_steady_threshold_formula (sqrtFn expFn : ℚ → ℚ) (a b c s : ℚ)
    (k : ℤ) (st : EngState) (t : ℕ) (v : Option ℚ)
    (h : st.change_detected = false) :
    (engineStep sqrtFn expFn a b c s k st t v).2 =
      if fgt v (fadd (fadd (fmul (some a) (win0 st.window))
            (fmul (some b) (nanmean st.window)))
          (fmul (some c) (nanstd sqrtFn st.window))) = true
      then some (t - 1, t) else none := by
  simp [engineStep, stepThreshold, h, basicThreshold]

/-- Witness for C1 at a concrete inactive state. -/
theorem C1_steady_threshold_formula_witness :
    (initState 2).change_detected = false ∧
    (engineStep zeroFn zeroFn 0 0 0 0 10 (initState 2) 2 (some 1)).2 =
      (if fgt (some 1) (fadd (fadd (fmul (some 0) (win0 (initState 2).window))
            (fmul (some 0) (nanmean (initState 2).window)))
          (fmul (some 0) (nanstd zeroFn (initState 2).window))) = true
       then some (2 - 1, 2) else none) :=
  ⟨rfl, C1_steady_threshold_formula zeroFn zeroFn 0 0 0 0 10 (initState 2) 2 (some 1) rfl⟩

/-- C2: for every step taken while post-change decay is active, the
event decision compares the score against exactly
`last_change_frame_value * exp(-s * (current_frame - last_change_frame))`
— this holds whatever the counter value, in particular on the step
where the counter reaches zero; and if the counter reaches zero on a
non-triggering step, decay mode is inactive afterwards, so the
steady-state formula is the one used from the next step on. -/
theorem C2_decay_threshold_formula (sqrtFn expFn : ℚ → ℚ) (a b c s : ℚ)
    (k : ℤ) (st : EngState) (t u : ℕ) (v : Option ℚ)
    (h : st.change_detected = true) :
    ((engineStep sqrtFn expFn a b c s k st t v).2 =
      if fgt v (fmul st.last_change_frame_value
          (some (expFn (s * (-1) * ((t : ℚ) - (st.last_change_frame : ℚ)))))) = true
      then some (t - 1, t) else none) ∧
    (st.decay_counter ≤ 1 →
      fgt v (stepThreshold sqrtFn expFn a b c s st t) = false →
      ((engineStep sqrtFn expFn a b c s k st t v).1.change_detected = false ∧
        stepThreshold sqrtFn expFn a b c s
            (engineStep sqrtFn expFn a b c s k st t v).1 u =
          basicThreshold sqrtFn a b c
            (engineStep sqrtFn expFn a b c s k st t v).1.window)) := by
  refine ⟨?_, ?_⟩
  · simp only [engineStep, stepThreshold, h, if_true, decayThreshold]
  · intro h1 h2
    have hcd : (engineStep sqrtFn expFn a b c s k st t v).1.change_detected = false := by
      have hno : ¬ (0 < st.decay_counter - 1) := by omega
      have h3 : fgt v (decayThreshold expFn st.last_change_frame_value s
          st.last_change_frame t) = false := by
        simpa [stepThreshold, h] using h2
      simp [engineStep, stepThreshold, h, h3, hno]
    refine ⟨hcd, ?_⟩
    simp only [stepThreshold, hcd, Bool.false_eq_true, if_false]

/-- Witness for C2 at a concrete decay-active state with counter 1. -/
theorem C2_decay_threshold_formula_witness :
    (({ window := [none, none], change_detected := true, decay_counter := 1,
        last_change_frame := 4, last_change_frame_value := some 5 } : EngState)).change_detected
        = true ∧
    (((engineStep zeroFn zeroFn 0 0 0 0 10
        { window := [none, none], change_detected := true, decay_counter := 1,
          last_change_frame := 4, last_change_frame_value := some 5 } 5 (some 1)).2 =
      if fgt (some 1) (fmul (some 5)
          (some (zeroFn (0 * (-1) * ((5 : ℚ) - ((4 : ℤ) : ℚ)))))) = true
      then some (5 - 1, 5) else none) ∧
    ((1 : ℤ) ≤ 1 →
      fgt (some 1) (stepThreshold zeroFn zeroFn 0 0 0 0
          { window := [none, none], change_detected := true, decay_counter := 1,
            last_change_frame := 4, last_change_frame_value := some 5 } 5) = false →
      ((engineStep zeroFn zeroFn 0 0 0 0 10
          { window := [none, none], change_detected := true, decay_counter := 1,
            last_change_frame := 4, last_change_frame_value := some 5 } 5 (some 1)).1.change_detected
          = false ∧
        stepThreshold zeroFn zeroFn 0 0 0 0
            (engineStep zeroFn zeroFn 0 0 0 0 10
              { window := [none, none], change_detected := true, decay_counter := 1,
                last_change_frame := 4, last_change_frame_value := some 5 } 5 (some 1)).1 6 =
          basicThreshold zeroFn 0 0 0
            (engineStep zeroFn zeroFn 0 0 0 0 10
              { window := [none, none], change_detected := true, decay_counter := 1,
                last_change_frame := 4, last_change_frame_value := some 5 } 5 (some 1)).1.window))) :=
  ⟨rfl, C2_decay_threshold_formula zeroFn zeroFn 0 0 0 0 10 _ 5 6 (some 1) rfl⟩

/-- C3: every triggering step (score above the step's threshold) emits
the event `(t - 1, t)` and unconditionally overwrites the decay state
with `{active, frames_remaining = k, anchor frame = t, anchor score =
the score}` — for any prior state, in particular one already in decay,
so a second change inside the decay period restarts the clock from the
new anchor. -/
theorem C3_trigger_overwrites_state (sqrtFn expFn : ℚ → ℚ) (a b c s : ℚ)
    (k : ℤ) (st : EngState) (t : ℕ) (v : Option ℚ)
    (h : fgt v (stepThreshold sqrtFn expFn a b c s st t) = true) :
    (engineStep sqrtFn expFn a b c s k st t v).2 = some (t - 1, t) ∧
    (engineStep sqrtFn expFn a b c s k st t v).1.change_detected = true ∧
    (engineStep sqrtFn expFn a b c s k st t v).1.decay_counter = k ∧
    (engineStep sqrtFn expFn a b c s k st t v).1.last_change_frame = (t : ℤ) ∧
    (engineStep sqrtFn expFn a b c s k st t v).1.last_change_frame_value = v := by
  simp [engineStep, h]

/-- Witness for C3: a trigger from inside an active decay period
(counter 3 of an earlier anchor) is overwritten to the new anchor. -/
theorem C3_trigger_overwrites_state_witness :
    fgt (some 9) (stepThreshold zeroFn zeroFn 0 0 0 0
        { window := [some 1, some 1], change_detected := true, decay_counter := 3,
          last_change_frame := 4, last_change_frame_value := some 5 } 6) = true ∧
    ((engineStep zeroFn zeroFn 0 0 0 0 20
        { window := [some 1, some 1], change_detected := true, decay_counter := 3,
          last_change_frame := 4, last_change_frame_value := some 5 } 6 (some 9)).2 =
      some (6 - 1, 6) ∧
    (engineStep zeroFn zeroFn 0 0 0 0 20
        { window := [some 1, some 1], change_detected := true, decay_counter := 3,
          last_change_frame := 4, last_change_frame_value := some 5 } 6 (some 9)).1.change_detected
        = true ∧
    (engineStep zeroFn zeroFn 0 0 0 0 20
        { window := [some 1, some 1], change_detected := true, decay_counter := 3,
          last_change_frame := 4, last_change_frame_value := some 5 } 6 (some 9)).1.decay_counter
        = 20 ∧
    (engineStep zeroFn zeroFn 0 0 0 0 20
        { window := [some 1, some 1], change_detected := true, decay_counter := 3,
          last_change_frame := 4, last_change_frame_value := some 5 } 6 (some 9)).1.last_change_frame
        = ((6 : ℕ) : ℤ) ∧
    (engineStep zeroFn zeroFn 0 0 0 0 20
        { window := [some 1, some 1], change_detected := true, decay_counter := 3,
          last_change_frame := 4, last_change_frame_value := some 5 } 6 (some 9)).1.last_change_frame_value
        = some 9) :=
  ⟨by norm_num [stepThreshold, decayThreshold, zeroFn, fmul, fgt],
   C3_trigger_overwrites_state zeroFn zeroFn 0 0 0 0 20 _ 6 (some 9)
     (by norm_num [stepThreshold, decayThreshold, zeroFn, fmul, fgt])⟩



/-- C8 (code bug): on the frames `[[16]]` and `[[0]]` the code's SSD is
0, while the documented sum of squared differences is 256 — the
element-wise difference and square are computed in `uint8` and wrap
modulo 256 (`(16 - 0)² = 256 ≡ 0`), contradicting the docstring
"calculates the sum of squared differences". -/
theorem C8_ssd_uint8_overflow :
    calculate_SSD [[16]] [[0]] = some 0 ∧ ssdSpecFormula [[16]] [[0]] = 256 := by
  constructor
  · norm_num [calculate_SSD, ssdNat, u8sub, flattenFrame]
  · norm_num [ssdSpecFormula, flattenFrame]

/-- C6 (code bug): the CORR score fed to the comparison is the raw
correlation coefficient, not `1 - correlation`: on four identical
non-constant frames every score is the correlation 1, and with
`a = b = 0`, `c = 1` (standard deviation of the filled window is 0) the
steady threshold at frame 4 is 0, so the raw score 1 triggers an event
— had the caller fed `1 - correlation = 0`, no event could fire
(`0 > 0` is false).  `corrTestSqrt` is exact on the two radicands that
occur (0 and 4). -/
theorem C6_corr_fed_raw_to_comparison :
    calculate_CORR corrTestSqrt [[4, 0, 0, 0]] [[4, 0, 0, 0]] = some 1 ∧
    detect corrTestSqrt zeroFn 2 "CORR" 0 0 1 0 10
      [[[4, 0, 0, 0]], [[4, 0, 0, 0]], [[4, 0, 0, 0]], [[4, 0, 0, 0]]] = .ok [(3, 4)] ∧
    (1 : ℚ) ≠ 1 - 1 := by
  refine ⟨?_, ?_, by norm_num⟩
  · norm_num [calculate_CORR, corrTestSqrt, flattenFrame]
  · norm_num [detect, detectLoop, calculate_CORR, engineStep, stepThreshold,
      basicThreshold, decayThreshold, nanmean, nanstd, initState, List.replicate,
      corrTestSqrt, zeroFn, fadd, fmul, fgt, present, win0, flattenFrame]

/-- C10: a run over at most one frame never reaches the metric
dispatch (the lookup happens only once a second frame is processed),
so it completes without error for every method name, known or not. -/
theorem C10_short_run_no_dispatch_error (sqrtFn expFn : ℚ → ℚ) (ws : ℕ)
    (method : String) (a b c s : ℚ) (k : ℤ) (frames : List Frame)
    (h : frames.length ≤ 1) :
    detect sqrtFn expFn ws method a b c s k frames = .ok [] := by
  match frames with
  | [] => rfl
  | [f] => rfl
  | f1 :: f2 :: rest =>
      exfalso
      simp only [List.length_cons] at h
      omega

/-- Witness for C10: one frame with the unrecognized method name
"FOO". -/
theorem C10_short_run_no_dispatch_error_witness :
    ([[[0]]] : List Frame).length ≤ 1 ∧
    detect zeroFn zeroFn 2 "FOO" 0 0 0 0 0 [[[0]]] = .ok [] :=
  ⟨by norm_num,
   C10_short_run_no_dispatch_error zeroFn zeroFn 2 "FOO" 0 0 0 0 0 [[[0]]] (by norm_num)⟩

/-- C7 counterexample: with the unrecognized method name "FOO",
construction succeeds and a one-frame run completes without error (so
no validation happens at construction/configuration time), while a
two-frame run fails with the lookup error at frame-processing time —
the opposite of the claimed timing. -/
theorem C7_counterexample_error_at_processing_time :
    detect zeroFn zeroFn 2 "FOO" 0 0 0 0 0 [[[0]]] = .ok [] ∧
    detect zeroFn zeroFn 2 "FOO" 0 0 0 0 0 [[[0]], [[0]]] = .error () := by
  exact ⟨rfl, rfl⟩

/-- C7 as amended: an unknown metric name raises the lookup error at
frame-processing time, on the first compared frame pair (whatever
follows it), and a run that processes at most one frame — in
particular the construction itself — raises no error. -/
theorem C7_unknown_method_errors_at_first_pair (sqrtFn expFn : ℚ → ℚ)
    (ws : ℕ) (method : String) (a b c s : ℚ) (k : ℤ) (f1 f2 : Frame)
    (rest : List Frame) (h : getDifferenceMethod sqrtFn method = none) :
    detect sqrtFn expFn ws method a b c s k (f1 :: f2 :: rest) = .error () ∧
    detect sqrtFn expFn ws method a b c s k [f1] = .ok [] := by
  constructor
  · simp [detect, detectLoop, h]
  · rfl

/-- Witness for C7 as amended, at the method name "FOO". -/
theorem C7_unknown_method_errors_at_first_pair_witness :
    getDifferenceMethod zeroFn "FOO" = none ∧
    (detect zeroFn zeroFn 2 "FOO" 0 0 0 0 0 ([[0]] :: [[0]] :: []) = .error () ∧
     detect zeroFn zeroFn 2 "FOO" 0 0 0 0 0 [[[0]]] = .ok []) :=
  ⟨rfl, C7_unknown_method_errors_at_first_pair zeroFn zeroFn 2 "FOO" 0 0 0 0 0
    [[0]] [[0]] [] rfl⟩

/-- Second component of a step, definitionally: the event is emitted
iff the score exceeds the step's threshold. -/
theorem engineStep_snd (sqrtFn expFn : ℚ → ℚ) (a b c s : ℚ) (k : ℤ)
    (st : EngState) (t : ℕ) (v : Option ℚ) :
    (engineStep sqrtFn expFn a b c s k st t v).2 =
      if fgt v (stepThreshold sqrtFn expFn a b c s st t) = true
      then some (t - 1, t) else none := rfl

/-- With fewer than 2 present window entries the sample standard
deviation is NaN, and NaN propagates through the whole steady-state
threshold. -/
theorem basicThreshold_eq_none_of_sparse (sqrtFn : ℚ → ℚ) (a b c : ℚ)
    (w : List (Option ℚ)) (h : (present w).length < 2) :
    basicThreshold sqrtFn a b c w = none := by
  simp [basicThreshold, nanstd, h]

/-- Every event of a successful run of the playback loop is emitted at
a frame strictly beyond the starting `frame_count`; when no previous
frame is seeded yet, the first frame cannot carry an event either. -/
theorem detectLoop_events_frame_lb (sqrtFn expFn : ℚ → ℚ) (a b c s : ℚ)
    (k : ℤ) (method : String) (frames : List Frame) :
    ∀ (st : EngState) (pf : Option Frame) (fc : ℕ) (evs : List (ℕ × ℕ)),
      detectLoop sqrtFn expFn a b c s k method st pf fc frames = Except.ok evs →
      ∀ e ∈ evs, fc + 1 ≤ e.2 ∧ (pf = none → fc + 2 ≤ e.2) := by
  induction frames with
  | nil =>
      intro st pf fc evs hok e he
      have hevs : ([] : List (ℕ × ℕ)) = evs := by
        cases pf <;> simpa [detectLoop] using hok
      rw [← hevs] at he
      simp at he
  | cons f rest ih =>
      intro st pf fc evs hok e he
      cases pf with
      | none =>
          simp only [detectLoop] at hok
          have h2 := ih st (some f) (fc + 1) evs hok e he
          exact ⟨by omega, fun _ => by omega⟩
      | some pf =>
          cases hm : getDifferenceMethod sqrtFn method with
          | none =>
              simp only [detectLoop, hm] at hok
              exact absurd hok (by simp)
          | some mf =>
              simp only [detectLoop, hm] at hok
              cases hrec : detectLoop sqrtFn expFn a b c s k method
                  (engineStep sqrtFn expFn a b c s k st (fc + 1) (mf f pf)).1
                  (some f) (fc + 1) rest with
              | error e2 =>
                  rw [hrec] at hok
                  simp at hok
              | ok evs2 =>
                  rw [hrec] at hok
                  simp only [Except.ok.injEq] at hok
                  cases hshape : (engineStep sqrtFn expFn a b c s k st (fc + 1) (mf f pf)).2 with
                  | none =>
                      rw [hshape] at hok
                      subst hok
                      have h2 := ih _ (some f) (fc + 1) evs2 hrec e he
                      exact ⟨by omega, fun _ => by omega⟩
                  | some ev =>
                      rw [hshape] at hok
                      subst hok
                      rcases List.mem_cons.mp he with rfl | he2
                      · have hsnd := engineStep_snd sqrtFn expFn a b c s k st (fc + 1) (mf f pf)
                        rw [hshape] at hsnd
                        by_cases htr : fgt (mf f pf)
                            (stepThreshold sqrtFn expFn a b c s st (fc + 1)) = true
                        · rw [if_pos htr] at hsnd
                          have hev : e = (fc + 1 - 1, fc + 1) := by
                            exact Option.some.inj hsnd
                          refine ⟨?_, fun hpf => by simp at hpf⟩
                          rw [hev]
                        · rw [if_neg htr] at hsnd
                          exact absurd hsnd (by simp)
                      · have h2 := ih _ (some f) (fc + 1) evs2 hrec e he2
                        exact ⟨by omega, fun _ => by omega⟩

/-- C4 counterexample: the claim fails as stated on a run in decay
mode, on a concrete frame sequence with every float operation exact.
With `method = CORR`, `window_size = 2`, `a = b = 0`, `c = 1`, `s = 0`,
`k = 10`, the frames `G, G, G, H, C, G, G` (`G = [[4,0,0,0]]`,
`H = [[4,4,4,0]]`, `C = [[0,0,0,0]]` constant) yield the scores
`1, 1, 1/3, NaN, NaN, 1` at frames 2-7: the correlation 1/3 at frame 4
beats the steady threshold 0 (standard deviation of `[1,1]` is 0) and
anchors the decay, the two NaN scores (CORR against a constant frame
is NaN) empty the window while decay stays active, and at frame 7 the
score 1 beats the decayed threshold `1/3 * exp(0) = 1/3`, emitting
`(6, 7)` on a step whose window holds 0 present entries.  `corrTestSqrt`
is exact on the only radicands that occur (0 and 4), and with `s = 0`
the only exponential argument is 0, where `oneFn` is exact
(`exp(0) = 1.0` in IEEE); so every comparison outcome matches the real
program.  The engine-level conjuncts exhibit the sparse window and the
active decay at the event step. -/
theorem C4_counterexample_event_during_decay_with_sparse_window :
    detect corrTestSqrt oneFn 2 "CORR" 0 0 1 0 10
      [[[4, 0, 0, 0]], [[4, 0, 0, 0]], [[4, 0, 0, 0]], [[4, 4, 4, 0]],
       [[0, 0, 0, 0]], [[4, 0, 0, 0]], [[4, 0, 0, 0]]] =
      Except.ok [(3, 4), (6, 7)] ∧
    (present (runAux corrTestSqrt oneFn 0 0 1 0 10 (initState 2) 2
        [some 1, some 1, some (1 / 3), none, none]).1.window).length = 0 ∧
    (runAux corrTestSqrt oneFn 0 0 1 0 10 (initState 2) 2
        [some 1, some 1, some (1 / 3), none, none]).1.change_detected = true ∧
    (engineStep corrTestSqrt oneFn 0 0 1 0 10
        (runAux corrTestSqrt oneFn 0 0 1 0 10 (initState 2) 2
          [some 1, some 1, some (1 / 3), none, none]).1 7 (some 1)).2 = some (6, 7) := by
  have hS : (runAux corrTestSqrt oneFn 0 0 1 0 10 (initState 2) 2
      [some 1, some 1, some (1 / 3), none, none]).1 =
      { window := [none, none], change_detected := true, decay_counter := 8,
        last_change_frame := 4, last_change_frame_value := some (1 / 3) } := by
    norm_num [runAux, engineStep, stepThreshold, basicThreshold, decayThreshold,
      nanmean, nanstd, initState, List.replicate, fadd, fmul, fgt, present,
      win0, corrTestSqrt, oneFn]
  refine ⟨?_, ?_, ?_, ?_⟩
  · norm_num [detect, detectLoop, calculate_CORR, engineStep, stepThreshold,
      basicThreshold, decayThreshold, nanmean, nanstd, initState,
      List.replicate, corrTestSqrt, oneFn, fadd, fmul, fgt, present, win0,
      flattenFrame]
  · rw [hS]
    norm_num [present]
  · rw [hS]
  · rw [hS]
    norm_num [engineStep, stepThreshold, decayThreshold, fmul, fgt,
      corrTestSqrt, oneFn]

/-- C4 as amended: no event is ever emitted for the very first
ingested frame (every event of a successful run names a frame of index
at least 2), and no event can be emitted on a steady-state step
(decay inactive) whose window holds fewer than 2 present entries — the
steady-state threshold is then NaN and `score > NaN` is false.  (While
decay is active the threshold does not depend on the window, and an
event can fire there even with a sparse window.) -/
theorem C4_no_event_on_seed_or_sparse_steady_window (sqrtFn expFn : ℚ → ℚ)
    (ws : ℕ) (method : String) (a b c s : ℚ) (k : ℤ) (frames : List Frame)
    (evs : List (ℕ × ℕ)) (st : EngState) (t : ℕ) (v : Option ℚ)
    (hok : detect sqrtFn expFn ws method a b c s k frames = Except.ok evs)
    (hst : st.change_detected = false)
    (hw : (present st.window).length < 2) :
    evs.all (fun e => decide (2 ≤ e.2)) = true ∧
    stepThreshold sqrtFn expFn a b c s st t = none ∧
    (engineStep sqrtFn expFn a b c s k st t v).2 = none := by
  have hthr : stepThreshold sqrtFn expFn a b c s st t = none := by
    simp [stepThreshold, hst, basicThreshold_eq_none_of_sparse sqrtFn a b c st.window hw]
  refine ⟨?_, hthr, ?_⟩
  · rw [List.all_eq_true]
    intro e he
    have h2 := detectLoop_events_frame_lb sqrtFn expFn a b c s k method frames
      (initState ws) none 0 evs hok e he
    have h3 := h2.2 rfl
    simp only [decide_eq_true_eq]
    omega
  · rw [engineStep_snd, hthr]
    simp

/-- Witness for C4 as amended: the empty run and the freshly
initialized (all-NaN, inactive) state. -/
theorem C4_no_event_on_seed_or_sparse_steady_window_witness :
    detect zeroFn zeroFn 2 "SAD" 0 0 0 0 0 ([] : List Frame) = Except.ok [] ∧
    (initState 2).change_detected = false ∧
    (present (initState 2).window).length < 2 ∧
    (([] : List (ℕ × ℕ)).all (fun e => decide (2 ≤ e.2)) = true ∧
     stepThreshold zeroFn zeroFn 0 0 0 0 (initState 2) 2 = none ∧
     (engineStep zeroFn zeroFn 0 0 0 0 0 (initState 2) 2 (some 1)).2 = none) :=
  ⟨rfl, rfl, by norm_num [present, initState, List.replicate],
   C4_no_event_on_seed_or_sparse_steady_window zeroFn zeroFn 2 "SAD" 0 0 0 0 0
     [] [] (initState 2) 2 (some 1) rfl rfl
     (by norm_num [present, initState, List.replicate])⟩

/-- C5 counterexample: the claim fails as stated.  First conjunct: with
`k = 0`, the event at frame 4 enters decay mode with
`frames_remaining = 0`, and the next step decrements the counter to
`-1` — `frames_remaining` does become negative (and the decayed
threshold is still used at frame 5 > F + k = 4).  Remaining conjuncts:
with `k = 2`, re-triggers at frames 5 and 6 keep decay mode active
after frame 6 = F + k of the first event at F = 4, so decay does not
end at or before F + k for that event. -/
theorem C5_counterexample_negative_counter_and_decay_past_k :
    (runAux zeroFn zeroFn 0 0 1 0 0 (initState 2) 2
        [some 1, some 1, some 5, some 0]).1.decay_counter = -1 ∧
    (runAux zeroFn zeroFn 0 0 1 0 2 (initState 2) 2
        [some 1, some 1, some 5, some 7, some 9]).2 = [(3, 4), (4, 5), (5, 6)] ∧
    (runAux zeroFn zeroFn 0 0 1 0 2 (initState 2) 2
        [some 1, some 1, some 5, some 7, some 9]).1.change_detected = true := by
  have h1 : (runAux zeroFn zeroFn 0 0 1 0 0 (initState 2) 2
      [some 1, some 1, some 5, some 0]).1 =
      { window := [some 0, some 5], change_detected := false, decay_counter := -1,
        last_change_frame := 4, last_change_frame_value := some 5 } := by
    norm_num [runAux, engineStep, stepThreshold, basicThreshold, decayThreshold,
      nanmean, nanstd, initState, List.replicate, fadd, fmul, fgt, present,
      win0, zeroFn]
  have h2 : runAux zeroFn zeroFn 0 0 1 0 2 (initState 2) 2
      [some 1, some 1, some 5, some 7, some 9] =
      ({ window := [some 9, some 7], change_detected := true, decay_counter := 2,
         last_change_frame := 6, last_change_frame_value := some 9 },
       [(3, 4), (4, 5), (5, 6)]) := by
    norm_num [runAux, engineStep, stepThreshold, basicThreshold, decayThreshold,
      nanmean, nanstd, initState, List.replicate, fadd, fmul, fgt, present,
      win0, zeroFn]
  rw [h1, h2]
  norm_num

/-- One step preserves the decay-mode invariant when `k ≥ 1`. -/
theorem engineStep_inv (sqrtFn expFn : ℚ → ℚ) (a b c s : ℚ) (k : ℤ)
    (hk : 1 ≤ k) (st : EngState) (t : ℕ) (v : Option ℚ)
    (h : EngInv k st t) :
    EngInv k (engineStep sqrtFn expFn a b c s k st t v).1 (t + 1) := by
  obtain ⟨h0, h1⟩ := h
  by_cases htr : fgt v (stepThreshold sqrtFn expFn a b c s st t) = true
  · have hc : (engineStep sqrtFn expFn a b c s k st t v).1.decay_counter = k := by
      simp [engineStep, htr]
    have hf : (engineStep sqrtFn expFn a b c s k st t v).1.last_change_frame = (t : ℤ) := by
      simp [engineStep, htr]
    refine ⟨by omega, fun _ => ⟨by omega, ?_⟩⟩
    rw [hc, hf]
    push_cast
    ring
  · cases hcd : st.change_detected with
    | false =>
        have hc : (engineStep sqrtFn expFn a b c s k st t v).1.decay_counter =
            st.decay_counter := by
          simp [engineStep, htr, hcd]
        have hcd2 : (engineStep sqrtFn expFn a b c s k st t v).1.change_detected =
            false := by
          simp [engineStep, htr, hcd]
        exact ⟨by omega, fun hx => absurd hx (by simp [hcd2])⟩
    | true =>
        obtain ⟨hc1, hc2⟩ := h1 hcd
        have hc : (engineStep sqrtFn expFn a b c s k st t v).1.decay_counter =
            st.decay_counter - 1 := by
          simp [engineStep, htr, hcd]
        have hcd2 : (engineStep sqrtFn expFn a b c s k st t v).1.change_detected =
            decide (0 < st.decay_counter - 1) := by
          simp [engineStep, htr, hcd]
        have hf : (engineStep sqrtFn expFn a b c s k st t v).1.last_change_frame =
            st.last_change_frame := by
          simp [engineStep, htr, hcd]
        refine ⟨by omega, fun hx => ?_⟩
        rw [hcd2, decide_eq_true_eq] at hx
        refine ⟨by omega, ?_⟩
        rw [hc, hf]
        push_cast
        omega

/-- A whole run preserves the decay-mode invariant when `k ≥ 1`. -/
theorem runAux_inv (sqrtFn expFn : ℚ → ℚ) (a b c s : ℚ) (k : ℤ)
    (hk : 1 ≤ k) (scores : List (Option ℚ)) :
    ∀ (st : EngState) (t : ℕ), EngInv k st t →
      EngInv k (runAux sqrtFn expFn a b c s k st t scores).1 (t + scores.length) := by
  induction scores with
  | nil =>
      intro st t h
      simpa [runAux] using h
  | cons v rest ih =>
      intro st t h
      have h2 := engineStep_inv sqrtFn expFn a b c s k hk st t v h
      have h3 := ih (engineStep sqrtFn expFn a b c s k st t v).1 (t + 1) h2
      simp only [runAux]
      have hlen : t + (v :: rest).length = (t + 1) + rest.length := by
        simp [List.length_cons]
        omega
      rw [hlen]
      exact h3

/-- C5 as amended, for every `k ≥ 1`: the decay counter of any
reachable state is never negative; while decay mode is active, the
next frame to be processed (frame `2 + number of scores`) is at most
`anchor + k`, the anchor being the most recent emitted event's frame —
so, absent re-triggering, decay mode ends at or before `F + k` for an
event at `F`; and immediately after any emitted event the engine is in
decay mode with the counter reset to `k`. -/
theorem C5_decay_invariant (sqrtFn expFn : ℚ → ℚ) (a b c s : ℚ) (k : ℤ)
    (ws : ℕ) (scores : List (Option ℚ)) (st : EngState) (t : ℕ)
    (v : Option ℚ) (hk : 1 ≤ k) :
    0 ≤ (runAux sqrtFn expFn a b c s k (initState ws) 2 scores).1.decay_counter ∧
    ((runAux sqrtFn expFn a b c s k (initState ws) 2 scores).1.change_detected = true →
      ((2 + scores.length : ℕ) : ℤ) ≤
        (runAux sqrtFn expFn a b c s k (initState ws) 2 scores).1.last_change_frame + k) ∧
    (fgt v (stepThreshold sqrtFn expFn a b c s st t) = true →
      ((engineStep sqrtFn expFn a b c s k st t v).1.change_detected = true ∧
       (engineStep sqrtFn expFn a b c s k st t v).1.decay_counter = k)) := by
  have hinit2 : EngInv k (initState ws) 2 := by
    exact ⟨by simp [initState], by simp [initState]⟩
  obtain ⟨h0, h1⟩ := runAux_inv sqrtFn expFn a b c s k hk scores (initState ws) 2 hinit2
  refine ⟨h0, ?_, ?_⟩
  · intro hcd
    obtain ⟨hc1, hc2⟩ := h1 hcd
    push_cast at hc2 ⊢
    omega
  · intro htr
    constructor
    · simp [engineStep, htr]
    · simp [engineStep, htr]

/-- Witness for C5 as amended: `k = 1`, the empty score run, and a
concrete triggering step. -/
theorem C5_decay_invariant_witness :
    (1 : ℤ) ≤ 1 ∧
    (0 ≤ (runAux zeroFn zeroFn 0 0 0 0 1 (initState 2) 2 []).1.decay_counter ∧
    ((runAux zeroFn zeroFn 0 0 0 0 1 (initState 2) 2 []).1.change_detected = true →
      ((2 + ([] : List (Option ℚ)).length : ℕ) : ℤ) ≤
        (runAux zeroFn zeroFn 0 0 0 0 1 (initState 2) 2 []).1.last_change_frame + 1) ∧
    (fgt (some 5) (stepThreshold zeroFn zeroFn 0 0 0 0
        { window := [some 1, some 1], change_detected := false, decay_counter := 0,
          last_change_frame := -1, last_change_frame_value := some 0 } 4) = true →
      ((engineStep zeroFn zeroFn 0 0 0 0 1
          { window := [some 1, some 1], change_detected := false, decay_counter := 0,
            last_change_frame := -1, last_change_frame_value := some 0 } 4 (some 5)).1.change_detected = true ∧
       (engineStep zeroFn zeroFn 0 0 0 0 1
          { window := [some 1, some 1], change_detected := false, decay_counter := 0,
            last_change_frame := -1, last_change_frame_value := some 0 } 4 (some 5)).1.decay_counter = 1))) :=
  ⟨by norm_num,
   C5_decay_invariant zeroFn zeroFn 0 0 0 0 1 2 []
     { window := [some 1, some 1], change_detected := false, decay_counter := 0,
       last_change_frame := -1, last_change_frame_value := some 0 } 4 (some 5)
     (by norm_num)⟩

/-- Taking `n` again after appending to an already-taken list changes
nothing. -/
theorem take_append_take {α : Type} (n : ℕ) (xs l : List α) :
    (xs ++ l.take n).take n = (xs ++ l).take n := by
  rw [List.take_append_eq_append_take, List.take_append_eq_append_take,
    List.take_take]
  congr 1
  rw [Nat.min_eq_left (Nat.sub_le n xs.length)]

/-- The window after a step, componentwise: the score is inserted at
the front after the oldest slot is dropped, whatever the branch taken
by the threshold logic. -/
theorem engineStep_window (sqrtFn expFn : ℚ → ℚ) (a b c s : ℚ) (k : ℤ)
    (st : EngState) (t : ℕ) (v : Option ℚ) :
    (engineStep sqrtFn expFn a b c s k st t v).1.window
      = v :: st.window.dropLast := by
  by_cases htr : fgt v (stepThreshold sqrtFn expFn a b c s st t) = true <;>
    cases hcd : st.change_detected <;> simp [engineStep, htr, hcd]

/-- The window contents of a run, in closed form: the reversed score
prefix (newest first) over the initial window, truncated to the
capacity. -/
theorem runAux_window (sqrtFn expFn : ℚ → ℚ) (a b c s : ℚ) (k : ℤ)
    (ws : ℕ) (h1 : 1 ≤ ws) (scores : List (Option ℚ)) :
    ∀ (st : EngState) (t : ℕ), st.window.length = ws →
      (runAux sqrtFn expFn a b c s k st t scores).1.window
        = (scores.reverse ++ st.window).take ws := by
  induction scores with
  | nil =>
      intro st t hlen
      simp only [runAux, List.reverse_nil, List.nil_append]
      rw [← hlen, List.take_length]
  | cons v rest ih =>
      intro st t hlen
      have hw := engineStep_window sqrtFn expFn a b c s k st t v
      have hlen2 : (engineStep sqrtFn expFn a b c s k st t v).1.window.length = ws := by
        rw [hw]
        simp only [List.length_cons, List.length_dropLast]
        omega
      have hrec := ih (engineStep sqrtFn expFn a b c s k st t v).1 (t + 1) hlen2
      simp only [runAux]
      rw [hrec, hw]
      have hd : v :: st.window.dropLast = (v :: st.window).take ws := by
        obtain ⟨m, rfl⟩ : ∃ m, ws = m + 1 := ⟨ws - 1, by omega⟩
        rw [List.take_succ_cons, List.dropLast_eq_take, hlen, Nat.add_sub_cancel]
      rw [hd, take_append_take]
      congr 1
      rw [List.reverse_cons, List.append_assoc, List.singleton_append]

/-- C9: for every `window_size ≥ 2` and every score sequence, the
window of the reached state has length exactly `window_size` (so never
exceeds it) and equals the reversed score sequence (newest at index 0)
over the initial NaN padding, truncated to capacity (oldest dropped);
and the next step pushes its score onto the window only after the
event decision, which compares the score against the threshold of the
pre-push state. -/
theorem C9_window_invariant (sqrtFn expFn : ℚ → ℚ) (a b c s : ℚ) (k : ℤ)
    (ws : ℕ) (scores : List (Option ℚ)) (v : Option ℚ) (hws : 2 ≤ ws) :
    (runAux sqrtFn expFn a b c s k (initState ws) 2 scores).1.window.length = ws ∧
    (runAux sqrtFn expFn a b c s k (initState ws) 2 scores).1.window
      = (scores.reverse ++ List.replicate ws (none : Option ℚ)).take ws ∧
    (engineStep sqrtFn expFn a b c s k
        (runAux sqrtFn expFn a b c s k (initState ws) 2 scores).1
        (2 + scores.length) v).1.window
      = v :: (runAux sqrtFn expFn a b c s k (initState ws) 2 scores).1.window.dropLast ∧
    (engineStep sqrtFn expFn a b c s k
        (runAux sqrtFn expFn a b c s k (initState ws) 2 scores).1
        (2 + scores.length) v).2
      = (if fgt v (stepThreshold sqrtFn expFn a b c s
            (runAux sqrtFn expFn a b c s k (initState ws) 2 scores).1
            (2 + scores.length)) = true
         then some (2 + scores.length - 1, 2 + scores.length) else none) := by
  have h1 : 1 ≤ ws := by omega
  have hlen0 : (initState ws).window.length = ws := by
    simp [initState]
  have hwin := runAux_window sqrtFn expFn a b c s k ws h1 scores (initState ws) 2 hlen0
  refine ⟨?_, hwin, ?_, ?_⟩
  · rw [hwin]
    simp only [List.length_take, List.length_append, List.length_reverse,
      List.length_replicate]
    omega
  · exact engineStep_window sqrtFn expFn a b c s k _ (2 + scores.length) v
  · exact engineStep_snd sqrtFn expFn a b c s k _ (2 + scores.length) v

/-- Witness for C9 at `window_size = 2` and the empty score prefix. -/
theorem C9_window_invariant_witness :
    2 ≤ 2 ∧
    ((runAux zeroFn zeroFn 0 0 0 0 1 (initState 2) 2 []).1.window.length = 2 ∧
    (runAux zeroFn zeroFn 0 0 0 0 1 (initState 2) 2 []).1.window
      = (([] : List (Option ℚ)).reverse ++ List.replicate 2 (none : Option ℚ)).take 2 ∧
    (engineStep zeroFn zeroFn 0 0 0 0 1
        (runAux zeroFn zeroFn 0 0 0 0 1 (initState 2) 2 []).1
        (2 + ([] : List (Option ℚ)).length) (some 1)).1.window
      = some 1 :: (runAux zeroFn zeroFn 0 0 0 0 1 (initState 2) 2 []).1.window.dropLast ∧
    (engineStep zeroFn zeroFn 0 0 0 0 1
        (runAux zeroFn zeroFn 0 0 0 0 1 (initState 2) 2 []).1
        (2 + ([] : List (Option ℚ)).length) (some 1)).2
      = (if fgt (some 1) (stepThreshold zeroFn zeroFn 0 0 0 0
            (runAux zeroFn zeroFn 0 0 0 0 1 (initState 2) 2 []).1
            (2 + ([] : List (Option ℚ)).length)) = true
         then some (2 + ([] : List (Option ℚ)).length - 1,
           2 + ([] : List (Option ℚ)).length) else none)) :=
  ⟨by norm_num,
   C9_window_invariant zeroFn zeroFn 0 0 0 0 1 2 [] (some 1) (by norm_num)⟩

end SceneDetection
